import Mathlib

/-!
Verification of the redeployment-service core against its specification.

The TypeScript source is shallowly embedded: pure string manipulation is
translated to Lean functions; every `await execAsync(...)` call site and
every awaited collaborator call is represented by an environment field of
type `Exec` or `Except String _` describing the outcome observed at that
call site (`.ok`/`Except.ok` for a resolved promise, `.err`/`Except.error`
for a rejected one), so that the `try`/`catch` control flow of the source
becomes explicit pattern matching.
-/

/-- JS string truthiness helper: `a || b` on strings (empty string is falsy). -/
def jsOr (a b : String) : String := if a = "" then b else a

/-- Auxiliary for `strIncludes`: does `pat` occur as a contiguous block in
the list? -/
def includesAux (pat : List Char) : List Char → Bool
  | [] => pat.isPrefixOf ([] : List Char)
  | c :: rest => pat.isPrefixOf (c :: rest) || includesAux pat rest

/-- JS `s.includes(sub)`: substring containment. -/
def strIncludes (s sub : String) : Bool := includesAux sub.toList s.toList

/-- Case-insensitive substring containment (used to state spec-level claims
about "case-insensitive markers"; the source itself never lowercases). -/
def strIncludesCI (s sub : String) : Bool :=
  includesAux (sub.toList.map Char.toLower) (s.toList.map Char.toLower)

/-- Auxiliary for `jsReplaceFirst`: replace the first occurrence of `pat`
by `repl` in a character list, scanning left to right. -/
def replaceFirstAux (pat repl : List Char) : List Char → List Char
  | [] => if pat.isPrefixOf ([] : List Char) then repl else []
  | c :: rest =>
    if pat.isPrefixOf (c :: rest) then repl ++ (c :: rest).drop pat.length
    else c :: replaceFirstAux pat repl rest

/-- JS `s.replace(pat, repl)` with a *string* pattern: replaces only the
first occurrence of `pat`, anywhere in `s`; `s` is returned unchanged when
`pat` does not occur. -/
def jsReplaceFirst (s pat repl : String) : String :=
  String.mk (replaceFirstAux pat.toList repl.toList s.toList)

/-- Embedding of `DeploymentService.extractBranchFromRef` (services/deployment.ts:135-139):
`return ref.replace('refs/heads/', '');`. -/
def DeploymentService.extractBranchFromRef (ref : String) : String :=
  jsReplaceFirst ref "refs/heads/" ""

/-- Embedding of `WebhookValidator.timingSafeEqual` (utils/webhook.ts): length check then
XOR-accumulate over char codes. -/
def WebhookValidator.timingSafeEqual (a b : String) : Bool :=
  if a.length ≠ b.length then false
  else
    ((a.toList.zip b.toList).foldl
      (fun acc p => acc ||| (p.1.toNat ^^^ p.2.toNat)) 0) == 0

/-- Embedding of `WebhookValidator.verifySignature` (utils/webhook.ts):
`if (!signature) return false;` then compares
`generateSignature(payload)` with `signature.replace('=', '')` using
`timingSafeEqual`.  `hmacHex` abstracts node's
`createHmac('sha256', secret).update(payload, 'utf8').digest('hex')`
(library code, not part of this repository); `signature` is `none` when the
header is absent (JS `undefined`), and `some ""` is likewise falsy. -/
def WebhookValidator.verifySignature (hmacHex : String → String → String)
    (secret payload : String) (signature : Option String) : Bool :=
  if signature.getD "" = "" then false
  else
    let expected := hmacHex secret payload
    let provided := jsReplaceFirst (signature.getD "") "=" ""
    WebhookValidator.timingSafeEqual expected provided

-- Sanity examples for the string helpers.
example : jsReplaceFirst "refs/heads/main" "refs/heads/" "" = "main" := by decide
example : jsReplaceFirst "xrefs/heads/main" "refs/heads/" "" = "xmain" := by decide
example : jsReplaceFirst "sha256=abc" "=" "" = "sha256abc" := by decide
example : WebhookValidator.timingSafeEqual "abc" "abc" = true := by decide
example : WebhookValidator.timingSafeEqual "abc" "abd" = false := by decide

/-- Replacing the first occurrence of a lone equals sign in a `sha256=`-prefixed header
leaves the `sha256` prefix glued to the digest. -/
theorem jsReplaceFirst_sha256_header (t : String) :
    jsReplaceFirst ("sha256=" ++ t) "=" "" = "sha256" ++ t := by
  obtain ⟨l⟩ := t
  apply String.ext
  simp [jsReplaceFirst, replaceFirstAux, List.isPrefixOf, String.toList]

/-- The constant-time comparison is `false` whenever the lengths differ. -/
theorem timingSafeEqual_of_ne_length (a b : String) (h : a.length ≠ b.length) :
    WebhookValidator.timingSafeEqual a b = false := by
  simp [WebhookValidator.timingSafeEqual, h]

/-- C2: the claim says `verifySignature` returns true exactly when the
hex-encoded HMAC of the payload matches the signature carried by the header.
It is false on the code: for a correctly formatted GitHub header
`sha256=<digest>` whose digest *is* the computed HMAC, `verifySignature`
still returns `false`, because `signature.replace('=', '')` removes only the
first `'='` and leaves the `sha256` prefix, so the compared strings always
differ in length.  This holds for every HMAC function, secret and payload,
so the service can never authenticate a genuine GitHub webhook. -/
theorem verifySignature_rejects_matching_github_header
    (hm : String → String → String) (secret payload : String) :
    WebhookValidator.verifySignature hm secret payload
      (some ("sha256=" ++ hm secret payload)) = false := by
  have hlen : ∀ t : String, ("sha256=" ++ t).length = 7 + t.length := by
    intro t
    rw [String.length_append]
    have h7 : ("sha256=").length = 7 := rfl
    omega
  have hne : ("sha256=" ++ hm secret payload) ≠ "" := by
    intro h
    have := congrArg String.length h
    rw [hlen] at this
    have h0 : ("" : String).length = 0 := rfl
    omega
  rw [WebhookValidator.verifySignature]
  simp only [Option.getD_some]
  rw [if_neg hne, jsReplaceFirst_sha256_header]
  apply timingSafeEqual_of_ne_length
  have h6 : ("sha256" ++ hm secret payload).length = 6 + (hm secret payload).length := by
    rw [String.length_append]
    have : ("sha256").length = 6 := rfl
    omega
  omega

/-- The function `replaceFirstAux` is the identity when the pattern does not occur. -/
theorem replaceFirstAux_no_occurrence (pat repl : List Char) (l : List Char)
    (h : includesAux pat l = false) : replaceFirstAux pat repl l = l := by
  induction l with
  | nil =>
    simp [includesAux] at h
    simp [replaceFirstAux, h]
  | cons c rest ih =>
    rw [includesAux, Bool.or_eq_false_iff] at h
    rw [replaceFirstAux, if_neg (by simp [h.1]), ih h.2]

/-- C4 counterexample: the claim says only a *leading* occurrence of
`refs/heads/` is removed, so a ref not starting with the prefix must be
returned unchanged.  On `"xrefs/heads/main"` (which does not start with the
prefix) the code removes the embedded occurrence and returns `"xmain"`. -/
theorem extractBranchFromRef_removes_nonleading_occurrence :
    ("refs/heads/".toList.isPrefixOf "xrefs/heads/main".toList) = false ∧
    DeploymentService.extractBranchFromRef "xrefs/heads/main" = "xmain" ∧
    DeploymentService.extractBranchFromRef "xrefs/heads/main" ≠ "xrefs/heads/main" := by
  refine ⟨by decide, by decide, by decide⟩

/-- C4 amended: `extractBranchFromRef` removes the *first* occurrence of
`"refs/heads/"` anywhere in the ref (for refs that begin with the prefix this
is the leading occurrence, and the remainder — embedded slashes included — is
returned verbatim); a ref containing no occurrence at all is returned
unchanged.  In particular `refs/heads/main ↦ main` and
`refs/heads/feature/x ↦ feature/x`. -/
theorem extractBranchFromRef_first_occurrence_only :
    (∀ b : String, DeploymentService.extractBranchFromRef ("refs/heads/" ++ b) = b) ∧
    (∀ r : String, strIncludes r "refs/heads/" = false →
      DeploymentService.extractBranchFromRef r = r) ∧
    DeploymentService.extractBranchFromRef "refs/heads/main" = "main" ∧
    DeploymentService.extractBranchFromRef "refs/heads/feature/x" = "feature/x" := by
  refine ⟨fun b => ?_, fun r h => ?_, by decide, by decide⟩
  · obtain ⟨l⟩ := b
    apply String.ext
    simp [DeploymentService.extractBranchFromRef, jsReplaceFirst, replaceFirstAux,
      List.isPrefixOf, String.toList]
  · obtain ⟨l⟩ := r
    apply String.ext
    simpa [DeploymentService.extractBranchFromRef, jsReplaceFirst] using
      replaceFirstAux_no_occurrence _ _ _ h

/-- Witness for the amended C4 theorem at concrete inputs. -/
theorem extractBranchFromRef_first_occurrence_only_witness :
    DeploymentService.extractBranchFromRef "refs/tags/v1" = "refs/tags/v1" :=
  extractBranchFromRef_first_occurrence_only.2.1 "refs/tags/v1" (by decide)

/-!
## JSON model (for the webhook route's signature payload, C1)

`express.json()` parses the raw request body with `JSON.parse`, and
`handleGitHubWebhook` (routes/webhook.ts:18-29) computes
`const payload = JSON.stringify(req.body)` before passing it to
`verifySignature`.  Neither `JSON.parse` nor `JSON.stringify` is code of
this repository, so both are modelled here.

Modelled from the spec: `jsonParse` models `JSON.parse` (ECMA-404 grammar,
restricted to strings without escape sequences and non-negative integer
numbers — enough to exhibit payloads GitHub can send), and `Json.stringify`
models `JSON.stringify` (minimal separators, no inserted whitespace).
-/

inductive Json where
  | str (s : String)
  | num (n : Nat)
  | bool (b : Bool)
  | null
  | arr (elems : List Json)
  | obj (members : List (String × Json))

def quoteJson (s : String) : String := "\"" ++ s ++ "\""

mutual
def Json.stringify : Json → String
  | .str s => quoteJson s
  | .num n => toString n
  | .bool b => if b then "true" else "false"
  | .null => "null"
  | .arr elems => "[" ++ stringifyElems elems ++ "]"
  | .obj members => "\x7b" ++ stringifyMembers members ++ "\x7d"

def stringifyElems : List Json → String
  | [] => ""
  | [v] => Json.stringify v
  | v :: w :: rest => Json.stringify v ++ "," ++ stringifyElems (w :: rest)

def stringifyMembers : List (String × Json) → String
  | [] => ""
  | [(k, v)] => quoteJson k ++ ":" ++ Json.stringify v
  | (k, v) :: m :: rest =>
      quoteJson k ++ ":" ++ Json.stringify v ++ "," ++ stringifyMembers (m :: rest)
end

def skipWs : List Char → List Char
  | [] => []
  | c :: cs => if c = ' ' || c = '\t' || c = '\n' || c = '\r' then skipWs cs else c :: cs

def parseStringAux : List Char → Option (String × List Char)
  | [] => none
  | c :: cs =>
    if c = '"' then some ("", cs)
    else
      match parseStringAux cs with
      | some (s, rest) => some (String.mk (c :: s.toList), rest)
      | none => none

def parseNatAux (cs : List Char) : Option (Nat × List Char) :=
  let digits := cs.takeWhile Char.isDigit
  if digits.isEmpty then none
  else some (digits.foldl (fun acc c => acc * 10 + (c.toNat - 48)) 0, cs.dropWhile Char.isDigit)

def lbrace : Char := Char.ofNat 123
def rbrace : Char := Char.ofNat 125

mutual
def parseValue : Nat → List Char → Option (Json × List Char)
  | 0, _ => none
  | fuel + 1, cs =>
    match skipWs cs with
    | '"' :: rest =>
      match parseStringAux rest with
      | some (s, rest2) => some (Json.str s, rest2)
      | none => none
    | 't' :: 'r' :: 'u' :: 'e' :: rest => some (Json.bool true, rest)
    | 'f' :: 'a' :: 'l' :: 's' :: 'e' :: rest => some (Json.bool false, rest)
    | 'n' :: 'u' :: 'l' :: 'l' :: rest => some (Json.null, rest)
    | '[' :: rest =>
      match skipWs rest with
      | ']' :: rest2 => some (Json.arr [], rest2)
      | rest2 =>
        match parseElems fuel rest2 with
        | some (vs, rest3) => some (Json.arr vs, rest3)
        | none => none
    | c :: rest =>
      if c = lbrace then
        match skipWs rest with
        | d :: rest2 =>
          if d = rbrace then some (Json.obj [], rest2)
          else
            match parseMembers fuel (d :: rest2) with
            | some (ms, rest3) => some (Json.obj ms, rest3)
            | none => none
        | [] => none
      else
        match parseNatAux (c :: rest) with
        | some (n, rest2) => some (Json.num n, rest2)
        | none => none
    | [] => none

def parseElems : Nat → List Char → Option (List Json × List Char)
  | 0, _ => none
  | fuel + 1, cs =>
    match parseValue fuel cs with
    | none => none
    | some (v, rest) =>
      match skipWs rest with
      | ',' :: rest2 =>
        match parseElems fuel rest2 with
        | some (vs, rest3) => some (v :: vs, rest3)
        | none => none
      | ']' :: rest2 => some ([v], rest2)
      | _ => none

def parseMembers : Nat → List Char → Option (List (String × Json) × List Char)
  | 0, _ => none
  | fuel + 1, cs =>
    match skipWs cs with
    | '"' :: rest =>
      match parseStringAux rest with
      | some (k, rest2) =>
        match skipWs rest2 with
        | ':' :: rest3 =>
          match parseValue fuel rest3 with
          | none => none
          | some (v, rest4) =>
            match skipWs rest4 with
            | ',' :: rest5 =>
              match parseMembers fuel rest5 with
              | some (ms, rest6) => some ((k, v) :: ms, rest6)
              | none => none
            | d :: rest5 =>
              if d = rbrace then some ([(k, v)], rest5) else none
            | [] => none
        | _ => none
      | none => none
    | _ => none
end

def jsonParse (s : String) : Option Json :=
  match parseValue (s.length + 1) s.toList with
  | some (v, rest) => if skipWs rest = [] then some v else none
  | none => none

/-- Embedding of `handleGitHubWebhook` (routes/webhook.ts:21):
`const payload = JSON.stringify(req.body);` — the string handed to
`verifySignature` is the re-serialization of the parsed body, not the raw
request bytes. -/
def payloadForSignature (body : Json) : String := Json.stringify body



/-- C1: the claim says the HMAC in `verifySignature` is computed over the
exact raw bytes the sender signed.  It is false on the code, which hashes
`JSON.stringify(req.body)`: the raw body `\x7b"a": 1\x7d` is valid JSON
(it parses), yet its re-serialization is `\x7b"a":1\x7d`, a different byte
string — so the HMAC is computed over bytes the sender never signed, and a
signature over such a raw body can never verify.  The spec itself flags
exactly this re-serialization as a correctness bug, so this is a code bug,
not a spec error. -/
theorem handleGitHubWebhook_signs_reserialized_body :
    jsonParse "\x7b\"a\": 1\x7d" = some (Json.obj [("a", Json.num 1)]) ∧
    payloadForSignature (Json.obj [("a", Json.num 1)]) = "\x7b\"a\":1\x7d" ∧
    payloadForSignature (Json.obj [("a", Json.num 1)]) ≠ "\x7b\"a\": 1\x7d" := by
  refine ⟨rfl, rfl, by decide⟩

/-!
## Workload Controller: `DockerManager.deployRepository` (utils/docker.ts:10-107)

Each `await execAsync(...)` call site is represented by an `Exec` outcome.
The `docker compose down --remove-orphans` and `sync` sites are omitted from
the environment because the source swallows their failures
(`.catch(() => ...)`) and never reads their outputs, so they cannot influence
the returned value.
-/

/-- Outcome of one `await execAsync(cmd)` call site: `ok stdout stderr` for a
resolved promise, `err stderr message` for a rejected one (node attaches the
child's `stderr` and a `message` to the thrown error). -/
inductive Exec where
  | ok (stdout stderr : String)
  | err (stderr message : String)

/-- JS `error.stderr || error.message || 'Unknown error'` (utils/docker.ts:99). -/
def jsErrorMessage (stderr message : String) : String :=
  jsOr stderr (jsOr message "Unknown error")

/-- Environment for one `DockerManager.deployRepository` call: the outcomes
of the awaited exec sites that can influence the result, in source order. -/
structure DockerEnv where
  down : Exec
  contextCheck : Exec
  build : Exec
  up : Exec
  status : Exec

/-- The source's failure classification of a diagnostic stream
(utils/docker.ts:48 and :64): stderr is truthy (non-empty) and contains one
of the case-sensitive substrings `"ERROR"`, `"error"`, `"failed"`. -/
def failureMarker (stderr : String) : Bool :=
  !(stderr == "") &&
    (strIncludes stderr "ERROR" || strIncludes stderr "error" ||
      strIncludes stderr "failed")

/-- The *spec's* marker predicate, stated from the claim's words for
comparison: a case-insensitive occurrence of `"error"` or `"fail"`. -/
def specFailureMarker (stderr : String) : Bool :=
  strIncludesCI stderr "error" || strIncludesCI stderr "fail"

/-- Unhealthy running-instance states (utils/docker.ts:84): the status output
mentions `Exited`, `Dead` or `Restarting`. -/
def unhealthyStatus (s : String) : Bool :=
  strIncludes s "Exited" || strIncludes s "Dead" || strIncludes s "Restarting"

/-- Result record `{ success, message }` returned by the Workload Controller. -/
structure DeployOutcome where
  success : Bool
  message : String

/-- Embedding of `DockerManager.deployRepository` (utils/docker.ts:10-107):
teardown, context check, no-cache build, force-recreate start, settle, then
the liveness probe; every rejected exec inside the `try` flows to the
catch-all that returns `Deployment failed: ...`. -/
def DockerManager.deployRepository (env : DockerEnv) (repoName : String) :
    DeployOutcome :=
  match env.down with
  | .err stderr message =>
    { success := false, message := "Deployment failed: " ++ jsErrorMessage stderr message }
  | .ok _ _ =>
    match env.contextCheck with
    | .err stderr message =>
      { success := false, message := "Deployment failed: " ++ jsErrorMessage stderr message }
    | .ok _ _ =>
      match env.build with
      | .err stderr message =>
        { success := false, message := "Deployment failed: " ++ jsErrorMessage stderr message }
      | .ok buildOutput buildError =>
        if failureMarker buildError then
          { success := false, message := "Docker Compose build error: " ++ buildError }
        else
          match env.up with
          | .err stderr message =>
            { success := false, message := "Deployment failed: " ++ jsErrorMessage stderr message }
          | .ok upOutput upError =>
            if failureMarker upError then
              { success := false, message := "Docker Compose error: " ++ upError }
            else
              match env.status with
              | .err stderr message =>
                { success := false,
                  message := "Deployment failed: " ++ jsErrorMessage stderr message }
              | .ok statusOutput _ =>
                if unhealthyStatus statusOutput then
                  { success := false,
                    message := "Container failed to start properly: " ++ statusOutput }
                else
                  { success := true,
                    message := "Successfully deployed " ++ repoName ++ ". Build: " ++
                      buildOutput.trim ++ ", Start: " ++ upOutput.trim }

/-- C3 counterexample: the claim says the call fails exactly when the
diagnostic stream contains a *case-insensitive* `"error"`/`"fail"` marker (or
the liveness check fails).  The start step's stderr
`"Failure: container exploded"` contains `"fail"` case-insensitively, the
liveness probe is healthy, every step resolves — so the claim classifies the
call as failed, yet the code returns `success = true`: the source only looks
for the case-sensitive substrings `"ERROR"`, `"error"`, `"failed"`. -/
theorem deployRepository_ignores_case_insensitive_markers :
    specFailureMarker "Failure: container exploded" = true ∧
    unhealthyStatus "web-1  Up 2 seconds" = false ∧
    (DockerManager.deployRepository
      ⟨.ok "" "", .ok "ctx" "", .ok "built" "",
        .ok "started" "Failure: container exploded", .ok "web-1  Up 2 seconds" ""⟩
      "svc").success = true := by
  refine ⟨by decide, by decide, by decide⟩

/-- C3 amended: when the teardown, context-check, build, start and status
subprocesses all resolve (no exception), the call is classified as failed
*iff* the build or start stderr is non-empty and contains one of the
**case-sensitive** substrings `"ERROR"`, `"error"`, `"failed"`, or the
post-start liveness check fails; warning text without such a marker does not
make the call fail. -/
theorem deployRepository_failure_classification
    (dOut dErr cOut cErr bOut bErr uOut uErr sOut sErr name : String) :
    (DockerManager.deployRepository
      ⟨.ok dOut dErr, .ok cOut cErr, .ok bOut bErr, .ok uOut uErr, .ok sOut sErr⟩
      name).success = false ↔
      (failureMarker bErr = true ∨ failureMarker uErr = true ∨
        unhealthyStatus sOut = true) := by
  unfold DockerManager.deployRepository
  by_cases hb : failureMarker bErr <;> by_cases hu : failureMarker uErr <;>
    by_cases hs : unhealthyStatus sOut <;> simp [hb, hu, hs]

/-- C8: if the teardown, build and start steps resolve without a failure
marker but the post-start status output shows a constituent container in an
`Exited`/`Dead`/`Restarting` state, the call returns `success = false` and
its message references the unhealthy status output. -/
theorem deployRepository_unhealthy_status_is_failure
    (dOut dErr cOut cErr bOut bErr uOut uErr sOut sErr name : String)
    (hb : failureMarker bErr = false) (hu : failureMarker uErr = false)
    (hs : unhealthyStatus sOut = true) :
    (DockerManager.deployRepository
      ⟨.ok dOut dErr, .ok cOut cErr, .ok bOut bErr, .ok uOut uErr, .ok sOut sErr⟩
      name).success = false ∧
    (DockerManager.deployRepository
      ⟨.ok dOut dErr, .ok cOut cErr, .ok bOut bErr, .ok uOut uErr, .ok sOut sErr⟩
      name).message = "Container failed to start properly: " ++ sOut := by
  unfold DockerManager.deployRepository
  simp [hb, hu, hs]

/-- Witness for C8 at a concrete crash-looping status output. -/
theorem deployRepository_unhealthy_status_is_failure_witness :
    (DockerManager.deployRepository
      ⟨.ok "" "", .ok "ctx" "", .ok "built" "", .ok "started" "",
        .ok "app-1  Restarting (1) 2 seconds ago" ""⟩
      "svc").success = false ∧
    (DockerManager.deployRepository
      ⟨.ok "" "", .ok "ctx" "", .ok "built" "", .ok "started" "",
        .ok "app-1  Restarting (1) 2 seconds ago" ""⟩
      "svc").message =
      "Container failed to start properly: " ++ "app-1  Restarting (1) 2 seconds ago" :=
  deployRepository_unhealthy_status_is_failure "" "" "ctx" "" "built" "" "started" ""
    "app-1  Restarting (1) 2 seconds ago" "" "svc" (by decide) (by decide) (by decide)

/-!
## Deployment Orchestrator: `DeploymentService` (services/deployment.ts)

The orchestrator is embedded as a pure function of the push event and an
environment describing the outcomes of the collaborator calls it awaits.
Alongside the returned `DeploymentResult` list, the embedding returns the
trace of Source Sync (`pullLatestChanges`) and Workload Controller
(`dockerManager.deployRepository`) invocations, so that "zero sync/redeploy
calls" claims are statable.
-/

/-- The `RepositoryInfo` record of types.ts. -/
structure RepositoryInfo where
  name : String
  path : String
  currentBranch : String
  hasDockerCompose : Bool
deriving DecidableEq

/-- The `DeploymentResult` record of types.ts; the clock reading
(`new Date().toISOString()`) is supplied by the environment. -/
structure DeploymentResult where
  repository : String
  branch : String
  success : Bool
  message : String
  timestamp : String
deriving DecidableEq

/-- Result of `GitManager.pullLatestChanges` (utils/git.ts:226-246); the
method wraps everything in try/catch so it resolves with
`{ success, message }`. -/
structure PullResult where
  success : Bool
  message : String
deriving DecidableEq

/-- Trace entries: one `sync` per `pullLatestChanges` invocation, one
`redeploy` per `dockerManager.deployRepository` invocation. -/
inductive Call where
  | sync (path branch : String)
  | redeploy (path name : String)
deriving DecidableEq

/-- Outcomes of the collaborator calls awaited inside one
`DeploymentService.deployRepository` call (services/deployment.ts:68-130),
in source order; `Except.error e` models a rejected promise whose JS string
interpolation `` `${error}` `` is `e`. -/
structure RepoStepEnv where
  pull : Except String PullResult
  checkPermissions : Except String String
  fixPython : Except String String
  dockerDeploy : Except String DeployOutcome
  containerLogs : Except String String
  containerStatus : Except String String

/-- Embedding of `DeploymentService.deployRepository`
(services/deployment.ts:68-130): pull; on pull failure return the failed
result without touching the Workload Controller; otherwise permission check,
python fix, docker deploy, and on a failed deploy the two debug probes; any
rejected awaited call flows to the catch that returns
`Deployment error: ...`. -/
def DeploymentService.deployRepository (repo : RepositoryInfo) (branch : String)
    (env : RepoStepEnv) (timestamp : String) : DeploymentResult × List Call :=
  match env.pull with
  | .error e =>
    ({ repository := repo.name, branch := branch, success := false,
       message := "Deployment error: " ++ e, timestamp := timestamp },
     [Call.sync repo.path branch])
  | .ok pullResult =>
    if !pullResult.success then
      ({ repository := repo.name, branch := branch, success := false,
         message := "Failed to pull changes: " ++ pullResult.message, timestamp := timestamp },
       [Call.sync repo.path branch])
    else
      match env.checkPermissions with
      | .error e =>
        ({ repository := repo.name, branch := branch, success := false,
           message := "Deployment error: " ++ e, timestamp := timestamp },
         [Call.sync repo.path branch])
      | .ok _ =>
        match env.fixPython with
        | .error e =>
          ({ repository := repo.name, branch := branch, success := false,
             message := "Deployment error: " ++ e, timestamp := timestamp },
           [Call.sync repo.path branch])
        | .ok _ =>
          match env.dockerDeploy with
          | .error e =>
            ({ repository := repo.name, branch := branch, success := false,
               message := "Deployment error: " ++ e, timestamp := timestamp },
             [Call.sync repo.path branch, Call.redeploy repo.path repo.name])
          | .ok deployResult =>
            if !deployResult.success then
              match env.containerLogs with
              | .error e =>
                ({ repository := repo.name, branch := branch, success := false,
                   message := "Deployment error: " ++ e, timestamp := timestamp },
                 [Call.sync repo.path branch, Call.redeploy repo.path repo.name])
              | .ok _ =>
                match env.containerStatus with
                | .error e =>
                  ({ repository := repo.name, branch := branch, success := false,
                     message := "Deployment error: " ++ e, timestamp := timestamp },
                   [Call.sync repo.path branch, Call.redeploy repo.path repo.name])
                | .ok _ =>
                  ({ repository := repo.name, branch := branch, success := deployResult.success,
                     message := deployResult.message, timestamp := timestamp },
                   [Call.sync repo.path branch, Call.redeploy repo.path repo.name])
            else
              ({ repository := repo.name, branch := branch, success := deployResult.success,
                 message := deployResult.message, timestamp := timestamp },
               [Call.sync repo.path branch, Call.redeploy repo.path repo.name])

/-- The push event fields the orchestrator reads: `pushEvent.ref` and
`pushEvent.repository.name` (types.ts). -/
structure GitHubPushEvent where
  ref : String
  repoName : String

/-- Environment for one `processPushEvent` call: the outcome of the
discovery phase (`gitManager.getRepositories()`, which may itself reject as
any awaited call can), the per-match collaborator outcomes indexed by the
match's position in the loop, and the clock reading. -/
structure OrchEnv where
  discover : Except String (List RepositoryInfo)
  perRepo : Nat → RepoStepEnv
  timestamp : String

/-- The match predicate of services/deployment.ts:32-36: name equality,
branch equality and presence of a workload descriptor, all at once. -/
def matchesPush (pushedRepoName pushedBranch : String) (repo : RepositoryInfo) : Bool :=
  repo.name == pushedRepoName && repo.currentBranch == pushedBranch && repo.hasDockerCompose

/-- The sequential `for (const repo of matchingRepos)` loop of
services/deployment.ts:46-49, with the loop position indexing into the
per-repository environments. -/
def deployLoop (branch timestamp : String) (perRepo : Nat → RepoStepEnv) :
    Nat → List RepositoryInfo → List (DeploymentResult × List Call)
  | _, [] => []
  | i, repo :: rest =>
    DeploymentService.deployRepository repo branch (perRepo i) timestamp ::
      deployLoop branch timestamp perRepo (i + 1) rest

/-- Embedding of `DeploymentService.processPushEvent`
(services/deployment.ts:17-63): derive the branch, discover repositories,
filter to full matches, deploy each match in order; an exception escaping
the discovery/matching phase is caught and converted into the single
`unknown` result.  Returns the result list together with the trace of
sync/redeploy calls. -/
def DeploymentService.processPushEvent (ev : GitHubPushEvent) (env : OrchEnv) :
    List DeploymentResult × List Call :=
  match env.discover with
  | .error e =>
    ([{ repository := "unknown", branch := "unknown", success := false,
        message := "Error processing push event: " ++ e, timestamp := env.timestamp }], [])
  | .ok repositories =>
    let pushedBranch := DeploymentService.extractBranchFromRef ev.ref
    let matchingRepos := repositories.filter (matchesPush ev.repoName pushedBranch)
    let outcomes := deployLoop pushedBranch env.timestamp env.perRepo 0 matchingRepos
    (outcomes.map Prod.fst, (outcomes.map Prod.snd).flatten)

/-- Every call traced by one per-repository deployment targets that
repository: a sync on its path with the pushed branch, or a redeploy on its
path and name. -/
theorem deployRepository_trace_mem (repo : RepositoryInfo) (branch : String)
    (renv : RepoStepEnv) (ts : String) :
    ∀ c ∈ (DeploymentService.deployRepository repo branch renv ts).2,
      c = Call.sync repo.path branch ∨ c = Call.redeploy repo.path repo.name := by
  unfold DeploymentService.deployRepository
  repeat' split
  all_goals (intro c hc; simp at hc; tauto)

/-- The deployment loop produces one outcome per matched repository. -/
theorem deployLoop_length (branch ts : String) (perRepo : Nat → RepoStepEnv) :
    ∀ (l : List RepositoryInfo) (i : Nat),
      (deployLoop branch ts perRepo i l).length = l.length := by
  intro l
  induction l with
  | nil => intro i; rfl
  | cons r rest ih => intro i; simp [deployLoop, ih]

/-- The `k`-th loop outcome is the deployment of the `k`-th match under its
own per-repository environment, independent of the other matches. -/
theorem deployLoop_getD (branch ts : String) (perRepo : Nat → RepoStepEnv) :
    ∀ (l : List RepositoryInfo) (i k : Nat) (d : DeploymentResult × List Call)
      (r0 : RepositoryInfo), k < l.length →
      (deployLoop branch ts perRepo i l).getD k d =
        DeploymentService.deployRepository (l.getD k r0) branch (perRepo (i + k)) ts := by
  intro l
  induction l with
  | nil => intro i k d r0 h; simp at h
  | cons r rest ih =>
    intro i k d r0 h
    match k with
    | 0 => simp [deployLoop, List.getD]
    | k + 1 =>
      have hk : k < rest.length := by simpa using h
      have := ih (i + 1) k d r0 hk
      simp only [deployLoop, List.getD_cons_succ] at this ⊢
      rw [this]
      congr 2
      omega

/-- Every traced call of the loop belongs to one of the matched
repositories. -/
theorem deployLoop_trace (branch ts : String) (perRepo : Nat → RepoStepEnv) :
    ∀ (l : List RepositoryInfo) (i : Nat) (c : Call),
      c ∈ ((deployLoop branch ts perRepo i l).map Prod.snd).flatten →
      ∃ r ∈ l, c = Call.sync r.path branch ∨ c = Call.redeploy r.path r.name := by
  intro l
  induction l with
  | nil => intro i c hc; simp [deployLoop] at hc
  | cons r rest ih =>
    intro i c hc
    simp only [deployLoop, List.map_cons, List.flatten_cons, List.mem_append] at hc
    rcases hc with hc | hc
    · exact ⟨r, by simp, deployRepository_trace_mem r branch (perRepo i) ts c hc⟩
    · obtain ⟨r', hr', hor⟩ := ih (i + 1) c (by simpa using hc)
      exact ⟨r', by simp [hr'], hor⟩

/-- C5: a repository is synced or redeployed only if it matches the pushed
name, the pushed branch, and has a workload descriptor (every traced call
belongs to a repository satisfying `matchesPush`); and when no discovered
repository satisfies all three, `processPushEvent` returns the empty list
and performs zero sync and zero redeploy calls. -/
theorem processPushEvent_only_full_matches (ev : GitHubPushEvent) (env : OrchEnv)
    (repos : List RepositoryInfo) (hd : env.discover = .ok repos) :
    (∀ c ∈ (DeploymentService.processPushEvent ev env).2,
      ∃ r ∈ repos,
        matchesPush ev.repoName (DeploymentService.extractBranchFromRef ev.ref) r = true ∧
        (c = Call.sync r.path (DeploymentService.extractBranchFromRef ev.ref) ∨
          c = Call.redeploy r.path r.name)) ∧
    ((∀ r ∈ repos,
        matchesPush ev.repoName (DeploymentService.extractBranchFromRef ev.ref) r = false) →
      DeploymentService.processPushEvent ev env = ([], [])) := by
  constructor
  · intro c hc
    unfold DeploymentService.processPushEvent at hc
    rw [hd] at hc
    simp only at hc
    obtain ⟨r, hr, hor⟩ := deployLoop_trace _ _ _ _ _ _ hc
    have hmem := (List.mem_filter.mp hr).1
    have hmatch := (List.mem_filter.mp hr).2
    exact ⟨r, hmem, hmatch, hor⟩
  · intro hnone
    unfold DeploymentService.processPushEvent
    rw [hd]
    have hfil : repos.filter
        (matchesPush ev.repoName (DeploymentService.extractBranchFromRef ev.ref)) = [] := by
      rw [List.filter_eq_nil_iff]
      intro r hr
      simp [hnone r hr]
    simp only [hfil, deployLoop]
    rfl

/-- C6: with exactly one matching repository whose source sync resolves with
`success = false`, the push produces exactly one failed `DeploymentResult`
carrying the sync failure message, and the Workload Controller's redeploy is
never invoked (the trace holds a single sync call). -/
theorem processPushEvent_sync_failure_skips_redeploy (ev : GitHubPushEvent) (env : OrchEnv)
    (repos : List RepositoryInfo) (r : RepositoryInfo) (msg : String)
    (hd : env.discover = .ok repos)
    (hm : repos.filter
      (matchesPush ev.repoName (DeploymentService.extractBranchFromRef ev.ref)) = [r])
    (hp : (env.perRepo 0).pull = .ok { success := false, message := msg }) :
    DeploymentService.processPushEvent ev env =
      ([{ repository := r.name, branch := DeploymentService.extractBranchFromRef ev.ref,
          success := false, message := "Failed to pull changes: " ++ msg,
          timestamp := env.timestamp }],
       [Call.sync r.path (DeploymentService.extractBranchFromRef ev.ref)]) := by
  unfold DeploymentService.processPushEvent
  rw [hd]
  simp only [hm, deployLoop]
  unfold DeploymentService.deployRepository
  rw [hp]
  simp

/-- C7: the result list has exactly one entry per match; the `k`-th result
depends only on the `k`-th match and its own collaborator outcomes, so a
failure in an earlier match cannot prevent later matches from being
processed; and a rejected promise inside one repository's processing is
caught at the per-repository boundary and converted into a failed
`DeploymentResult` (shown for the first awaited call, the sync). -/
theorem processPushEvent_isolates_failures (ev : GitHubPushEvent) (env : OrchEnv)
    (repos : List RepositoryInfo) (hd : env.discover = .ok repos) :
    ((DeploymentService.processPushEvent ev env).1.length =
      (repos.filter
        (matchesPush ev.repoName (DeploymentService.extractBranchFromRef ev.ref))).length) ∧
    (∀ (k : Nat) (d : DeploymentResult) (r0 : RepositoryInfo),
      k < (repos.filter
        (matchesPush ev.repoName (DeploymentService.extractBranchFromRef ev.ref))).length →
      (DeploymentService.processPushEvent ev env).1.getD k d =
        (DeploymentService.deployRepository
          ((repos.filter
            (matchesPush ev.repoName (DeploymentService.extractBranchFromRef ev.ref))).getD k r0)
          (DeploymentService.extractBranchFromRef ev.ref) (env.perRepo k) env.timestamp).1) ∧
    (∀ (repo : RepositoryInfo) (br : String) (renv : RepoStepEnv) (ts e : String),
      renv.pull = .error e →
      (DeploymentService.deployRepository repo br renv ts).1 =
        { repository := repo.name, branch := br, success := false,
          message := "Deployment error: " ++ e, timestamp := ts }) := by
  refine ⟨?_, ?_, ?_⟩
  · unfold DeploymentService.processPushEvent
    rw [hd]
    simp only [List.length_map]
    exact deployLoop_length _ _ _ _ _
  · intro k d r0 hk
    unfold DeploymentService.processPushEvent
    rw [hd]
    simp only
    set matching := repos.filter
      (matchesPush ev.repoName (DeploymentService.extractBranchFromRef ev.ref)) with hmdef
    have hlen : (deployLoop (DeploymentService.extractBranchFromRef ev.ref) env.timestamp
        env.perRepo 0 matching).length = matching.length := deployLoop_length _ _ _ _ _
    have hk2 : k < (deployLoop (DeploymentService.extractBranchFromRef ev.ref) env.timestamp
        env.perRepo 0 matching).length := by omega
    rw [List.getD_eq_getElem _ d (by simpa using hk2)]
    rw [List.getElem_map]
    have := deployLoop_getD (DeploymentService.extractBranchFromRef ev.ref) env.timestamp
      env.perRepo matching 0 k ((⟨"", "", false, "", ""⟩ : DeploymentResult), ([] : List Call))
      r0 hk
    rw [List.getD_eq_getElem _ _ hk2] at this
    rw [this]
    simp
  · intro repo br renv ts e hp
    unfold DeploymentService.deployRepository
    rw [hp]

/-- C9: when the discovery/matching phase rejects, `processPushEvent`
returns (it does not propagate the exception) and its result is exactly one
`DeploymentResult` with repository `"unknown"`, branch `"unknown"`,
`success = false` and a message containing the error; no sync or redeploy
call is made.  Totality over all other inputs is by construction: the
embedding is a total function. -/
theorem processPushEvent_discovery_error (ev : GitHubPushEvent) (env : OrchEnv) (e : String)
    (hd : env.discover = .error e) :
    DeploymentService.processPushEvent ev env =
      ([{ repository := "unknown", branch := "unknown", success := false,
          message := "Error processing push event: " ++ e, timestamp := env.timestamp }], []) := by
  unfold DeploymentService.processPushEvent
  rw [hd]

/-!
## Repository Catalog: `GitManager` (utils/git.ts:130-270)

String helpers first: the source splits `ls -la` output on newlines and on
whitespace runs (`line.split(/\s+/)`), and trims command outputs.  These JS
operations are embedded on character lists so they evaluate by kernel
reduction.
-/

/-- Split a character list at every separator char accepted by `p`,
keeping empty tokens between adjacent separators (JS `split` with a
single-char pattern). -/
def splitOnPred (p : Char → Bool) : List Char → List String
  | [] => [""]
  | c :: rest =>
    let r := splitOnPred p rest
    if p c then "" :: r
    else
      match r with
      | [] => [String.mk [c]]
      | t :: ts => String.mk (c :: t.toList) :: ts

/-- JS `s.startsWith(pre)`. -/
def jsStartsWith (s pre : String) : Bool := pre.toList.isPrefixOf s.toList

/-- Drop leading and trailing whitespace of a character list. -/
def listTrim (l : List Char) : List Char :=
  ((l.dropWhile Char.isWhitespace).reverse.dropWhile Char.isWhitespace).reverse

/-- JS `s.trim()`. -/
def jsTrim (s : String) : String := String.mk (listTrim s.toList)

/-- JS `s.split(/\s+/)`: splits on maximal whitespace runs; a leading or
trailing run contributes an empty boundary token, interior runs do not. -/
def jsSplitWs (s : String) : List String :=
  if s = "" then [""]
  else
    let raw := splitOnPred Char.isWhitespace s.toList
    let lead : List String := if (s.toList.headD 'x').isWhitespace then [""] else []
    let trail : List String := if (s.toList.getLastD 'x').isWhitespace then [""] else []
    lead ++ raw.filter (fun t => t != "") ++ trail

example : jsSplitWs "drwxr-xr-x  2 root root 4096 Oct 12 00:55 svc" =
    ["drwxr-xr-x", "2", "root", "root", "4096", "Oct", "12", "00:55", "svc"] := by decide
example : jsTrim " main\n" = "main" := by decide
example : splitOnPred (· == '\n') "a\nb\n".toList = ["a", "b", ""] := by decide

/-- Outcomes of the exec sites of one `getRepositoryInfo` call
(utils/git.ts:176-221), in source order: the `.git` directory probe, the
`git rev-parse` fallback, the `safe.directory` registration, the current
branch read, and the compose-file check. -/
structure FolderEnv where
  gitDirCheck : Except String String
  revParse : Except String String
  safeDir : Except String String
  branchOut : Except String String
  composeOut : Except String String

/-- Environment of one catalog scan: the outcome of `ls -la` on the apps
directory, and the per-folder exec outcomes. -/
structure CatalogEnv where
  ls : Except String String
  folder : String → FolderEnv

/-- Embedding of `GitManager.getRepositoryInfo` (utils/git.ts:176-221): the
inner try treats a failed probe as "not a git repository"; after the checks,
a rejected exec flows to the outer catch which returns `null`. -/
def GitManager.getRepositoryInfo (fenv : FolderEnv) (name path : String) :
    Option RepositoryInfo :=
  let isGitRepo :=
    match fenv.gitDirCheck with
    | .error _ => false
    | .ok gitDirOut =>
      if jsTrim gitDirOut == "true" then true
      else
        match fenv.revParse with
        | .error _ => false
        | .ok revOut => jsTrim revOut == "true"
  if !isGitRepo then none
  else
    match fenv.safeDir with
    | .error _ => none
    | .ok _ =>
      match fenv.branchOut with
      | .error _ => none
      | .ok currentBranch =>
        match fenv.composeOut with
        | .error _ => none
        | .ok composeCheck =>
          some { name := name, path := path, currentBranch := jsTrim currentBranch,
                 hasDockerCompose := jsTrim composeCheck == "true" }

/-- Embedding of `GitManager.getRepositories` (utils/git.ts:140-171): list
the apps directory, keep the `d`-lines, take the last whitespace-separated
token as the folder name, skip hidden folders and the service's own install
directory, and collect the per-folder records; a rejected `ls` flows to the
catch which swallows the error and returns the (empty) list. -/
def GitManager.getRepositories (env : CatalogEnv) (appsDir : String) :
    List RepositoryInfo :=
  match env.ls with
  | .error _ => []
  | .ok stdout =>
    let lines := (splitOnPred (· == '\n') stdout.toList).filter
      (fun line => jsStartsWith line "d")
    lines.foldl (fun repositories line =>
      let parts := jsSplitWs line
      let folderName := parts.getLastD ""
      if jsStartsWith folderName "." || folderName == "redeployment-service" then
        repositories
      else
        let repoPath := appsDir ++ "/" ++ folderName
        match GitManager.getRepositoryInfo (env.folder folderName) folderName repoPath with
        | some repoInfo => repositories ++ [repoInfo]
        | none => repositories) []

/-- A healthy per-folder environment for sanity checks. -/
def goodFolderEnv : FolderEnv :=
  { gitDirCheck := .ok "true", revParse := .ok "true", safeDir := .ok "",
    branchOut := .ok "main\n", composeOut := .ok "true" }

example :
    GitManager.getRepositories
      { ls := .ok "total 8\ndrwxr-xr-x 2 root root 4096 Oct 12 00:55 svc\ndrwxr-xr-x 2 root root 4096 Oct 12 00:55 .git\ndrwxr-xr-x 2 root root 4096 Oct 12 00:55 redeployment-service\n",
        folder := fun _ => goodFolderEnv } "/apps" =
    [{ name := "svc", path := "/apps/svc", currentBranch := "main",
       hasDockerCompose := true }] := by
  decide

/-- C10: when enumerating the root apps directory itself fails, the catalog
swallows the error and returns the empty list, and any push processed
against that discovery outcome yields the empty result list with zero
sync/redeploy calls — the very output a genuine no-match push produces, so
the two are indistinguishable at the public interface. -/
theorem getRepositories_scan_error_yields_no_match
    (appsDir msg : String) (cenv : CatalogEnv) (ev : GitHubPushEvent) (oenv : OrchEnv)
    (hls : cenv.ls = .error msg)
    (hdisc : oenv.discover = .ok (GitManager.getRepositories cenv appsDir)) :
    GitManager.getRepositories cenv appsDir = [] ∧
    DeploymentService.processPushEvent ev oenv = ([], []) := by
  have h1 : GitManager.getRepositories cenv appsDir = [] := by
    unfold GitManager.getRepositories
    rw [hls]
  refine ⟨h1, ?_⟩
  unfold DeploymentService.processPushEvent
  rw [hdisc, h1]
  simp only [List.filter_nil, deployLoop]
  rfl

/-!
## Concrete fixtures and witnesses
-/

/-- A push for repository `svc` on `refs/heads/main`. -/
def pushEv : GitHubPushEvent := { ref := "refs/heads/main", repoName := "svc" }

/-- A deployable checkout matching `pushEv`. -/
def svcRepo : RepositoryInfo :=
  { name := "svc", path := "/apps/svc", currentBranch := "main", hasDockerCompose := true }

/-- A second deployable checkout also matching `pushEv`. -/
def svcRepo2 : RepositoryInfo :=
  { name := "svc", path := "/apps/svc2", currentBranch := "main", hasDockerCompose := true }

/-- A checkout that does not match `pushEv` (different name). -/
def otherRepo : RepositoryInfo :=
  { name := "other", path := "/apps/other", currentBranch := "main", hasDockerCompose := true }

/-- Collaborator outcomes where every step succeeds. -/
def okStepEnv : RepoStepEnv :=
  { pull := .ok { success := true, message := "Successfully pulled changes: ok" },
    checkPermissions := .ok "perm", fixPython := .ok "No fixes needed",
    dockerDeploy := .ok { success := true, message := "deployed" },
    containerLogs := .ok "", containerStatus := .ok "" }

/-- Collaborator outcomes where the sync resolves with `success = false`. -/
def failPullStepEnv : RepoStepEnv :=
  { pull := .ok { success := false, message := "merge conflict" },
    checkPermissions := .ok "perm", fixPython := .ok "No fixes needed",
    dockerDeploy := .ok { success := true, message := "deployed" },
    containerLogs := .ok "", containerStatus := .ok "" }

/-- Collaborator outcomes where the sync call itself rejects. -/
def errPullStepEnv : RepoStepEnv :=
  { pull := .error "Error: spawn git ENOENT",
    checkPermissions := .ok "perm", fixPython := .ok "No fixes needed",
    dockerDeploy := .ok { success := true, message := "deployed" },
    containerLogs := .ok "", containerStatus := .ok "" }

/-- Orchestrator environment whose catalog holds only a non-matching repo. -/
def noMatchEnv : OrchEnv :=
  { discover := .ok [otherRepo], perRepo := fun _ => okStepEnv, timestamp := "t0" }

/-- Orchestrator environment with one match whose sync fails. -/
def oneMatchFailPullEnv : OrchEnv :=
  { discover := .ok [svcRepo], perRepo := fun _ => failPullStepEnv, timestamp := "t0" }

/-- Orchestrator environment with two matches; the first match's sync call
rejects, the second succeeds. -/
def twoMatchEnv : OrchEnv :=
  { discover := .ok [svcRepo, svcRepo2],
    perRepo := fun i => if i = 0 then errPullStepEnv else okStepEnv, timestamp := "t0" }

/-- Orchestrator environment whose discovery phase rejects. -/
def discErrEnv : OrchEnv :=
  { discover := .error "Error: EMFILE too many open files",
    perRepo := fun _ => okStepEnv, timestamp := "t0" }

/-- Catalog environment whose `ls -la` on the apps directory rejects. -/
def badCatalogEnv : CatalogEnv :=
  { ls := .error "EACCES: permission denied", folder := fun _ => goodFolderEnv }

/-- Orchestrator environment fed by the failed catalog scan. -/
def scanErrOrchEnv : OrchEnv :=
  { discover := .ok (GitManager.getRepositories badCatalogEnv "/apps"),
    perRepo := fun _ => okStepEnv, timestamp := "t0" }

/-- Witness for C5: the no-match push returns the empty result list and
makes zero sync/redeploy calls. -/
theorem processPushEvent_only_full_matches_witness :
    DeploymentService.processPushEvent pushEv noMatchEnv = ([], []) :=
  (processPushEvent_only_full_matches pushEv noMatchEnv [otherRepo] rfl).2 (by decide)

/-- Witness for C6 at the concrete one-match environment. -/
theorem processPushEvent_sync_failure_skips_redeploy_witness :
    DeploymentService.processPushEvent pushEv oneMatchFailPullEnv =
      ([{ repository := svcRepo.name,
          branch := DeploymentService.extractBranchFromRef pushEv.ref,
          success := false, message := "Failed to pull changes: " ++ "merge conflict",
          timestamp := oneMatchFailPullEnv.timestamp }],
       [Call.sync svcRepo.path (DeploymentService.extractBranchFromRef pushEv.ref)]) :=
  processPushEvent_sync_failure_skips_redeploy pushEv oneMatchFailPullEnv [svcRepo] svcRepo
    "merge conflict" rfl (by decide) rfl

/-- Witness for C7: with two matches and the first sync call rejecting, the
result list still has one entry per match (two). -/
theorem processPushEvent_isolates_failures_witness :
    ((DeploymentService.processPushEvent pushEv twoMatchEnv).1.length =
      ([svcRepo, svcRepo2].filter
        (matchesPush pushEv.repoName
          (DeploymentService.extractBranchFromRef pushEv.ref))).length) ∧
    (DeploymentService.processPushEvent pushEv twoMatchEnv).1.length = 2 :=
  ⟨(processPushEvent_isolates_failures pushEv twoMatchEnv [svcRepo, svcRepo2] rfl).1,
    by decide⟩

/-- Witness for C9 at a concrete rejected discovery. -/
theorem processPushEvent_discovery_error_witness :
    DeploymentService.processPushEvent pushEv discErrEnv =
      ([{ repository := "unknown", branch := "unknown", success := false,
          message := "Error processing push event: " ++ "Error: EMFILE too many open files",
          timestamp := discErrEnv.timestamp }], []) :=
  processPushEvent_discovery_error pushEv discErrEnv "Error: EMFILE too many open files" rfl

/-- Witness for C10 at a concrete failed scan. -/
theorem getRepositories_scan_error_yields_no_match_witness :
    GitManager.getRepositories badCatalogEnv "/apps" = [] ∧
    DeploymentService.processPushEvent pushEv scanErrOrchEnv = ([], []) :=
  getRepositories_scan_error_yields_no_match "/apps" "EACCES: permission denied"
    badCatalogEnv pushEv scanErrOrchEnv rfl rfl
